import Mathlib

/-!
# Verification of the win-tts-api MQTT→TTS bridge

Shallow embedding of `src/main.go`, which contains two program variants:

* **Variant A** (lines 1–297): PowerShell-based TTS, asynchronous dispatch with
  a 30-second soft timeout, auto-detects `config.json` in the working directory
  (flags ignored when the file loads).
* **Variant B** (lines 299–501): OLE/SAPI-based TTS, synchronous dispatch,
  explicit `--config` flag, flags override file values.

Go strings are modelled as lists of runes (Unicode code points, `Nat`).
Go's `len` on a string counts UTF-8 **bytes**, modelled by `goLen`;
the rune count is the list length.  `json.Unmarshal` and the MQTT/OS layers
are external libraries: the result of the structured decode
`struct{ Text string }` is a parameter (`Option GoStr`: `none` for a decode
error, `some t` for success with `Text = t`), and a config file's decoded
JSON is a `JsonVal` parameter.
-/

namespace WinTts

/-- A Go string, as its sequence of runes (Unicode code points). -/
abbrev GoStr := List Nat

/-- UTF-8 byte width of a rune, as Go encodes it. -/
def utf8Len (c : Nat) : Nat :=
  if c < 0x80 then 1 else if c < 0x800 then 2 else if c < 0x10000 then 3 else 4

/-- Go's `len` on a string: total number of UTF-8 bytes. -/
def goLen (s : GoStr) : Nat := (s.map utf8Len).sum

/-- Go's `unicode.IsSpace` (the Unicode White_Space property), used by
`strings.TrimSpace`. -/
def goIsSpace (c : Nat) : Bool :=
  c = 9 || c = 10 || c = 11 || c = 12 || c = 13 || c = 32 ||
  c = 0x85 || c = 0xA0 || c = 0x1680 || (0x2000 ≤ c && c ≤ 0x200A) ||
  c = 0x2028 || c = 0x2029 || c = 0x202F || c = 0x205F || c = 0x3000

/-- Go's `strings.TrimSpace`: drop leading and trailing whitespace runes. -/
def trimSpace (s : GoStr) : GoStr := (s.dropWhile goIsSpace).rdropWhile goIsSpace

/-!
## Message handler (both variants)

`var f mqtt.MessageHandler = func(client, msg) { ... }` appears once in each
variant (lines 24–40 and 322–338) with the same extraction/validation body.
The structured decode `json.Unmarshal([]byte(payload), &j)` into
`struct{ Text string }` is modelled by the parameter
`decoded : Option GoStr` (`none` = `err != nil`; `some t` = success with
`j.Text = t`, where an object lacking `"text"` or decoding `null` gives
`t = []`).  The result `some t` means `speakText t` is invoked
(synchronously in variant B, handed to the async dispatch goroutine in
variant A); `none` means the message is logged and dropped.
-/

/-- Variant A (lines 28–34): `if err == nil && j.Text != "" { text = j.Text }
else { text = payload }`. -/
def rawTextPS (payload : GoStr) (decoded : Option GoStr) : GoStr :=
  match decoded with
  | some t => if t = [] then payload else t
  | none => payload

/-- Variant A handler `f` (lines 24–40): select the text, trim it, and reject
when empty or longer than 500 bytes; otherwise dispatch it. -/
def handleMessagePS (payload : GoStr) (decoded : Option GoStr) : Option GoStr :=
  let text := rawTextPS payload decoded
  let text := trimSpace text
  if text = [] ∨ 500 < goLen text then none else some text

/-- Variant B (lines 326–332): `if err == nil && j.Text != "" { text = j.Text }
else { text = payload }`. -/
def rawTextOLE (payload : GoStr) (decoded : Option GoStr) : GoStr :=
  match decoded with
  | some t => if t = [] then payload else t
  | none => payload

/-- Variant B handler `f` (lines 322–338): select the text, trim it, and reject
when empty or longer than 500 bytes; otherwise call `speakText`. -/
def handleMessageOLE (payload : GoStr) (decoded : Option GoStr) : Option GoStr :=
  let text := rawTextOLE payload decoded
  let text := trimSpace text
  if text = [] ∨ 500 < goLen text then none else some text

/-!
## Configuration (both variants)

`type Config struct { Broker, Topic, Username, Password string }`.
Config values are modelled as Lean strings; the code only ever tests them
for emptiness. An empty string means "not set", as in the Go code.
-/

/-- `type Config struct` of `src/main.go` (lines 17–22 and 315–320). -/
structure Config where
  broker : String
  topic : String
  username : String
  password : String
deriving DecidableEq

/-- The hard defaults built at the start of both `main`s
(lines 190–193 and 427–430). -/
def defaultConfig : Config :=
  { broker := "tcp://localhost:1883", topic := "home/tts/say",
    username := "", password := "" }

/-- The file-merge step of both `main`s (lines 206–217 and 439–450):
each non-empty field of the loaded file config overwrites `cfg`. -/
def applyFile (cfg fileCfg : Config) : Config :=
  { broker := if fileCfg.broker ≠ "" then fileCfg.broker else cfg.broker,
    topic := if fileCfg.topic ≠ "" then fileCfg.topic else cfg.topic,
    username := if fileCfg.username ≠ "" then fileCfg.username else cfg.username,
    password := if fileCfg.password ≠ "" then fileCfg.password else cfg.password }

/-- The flag-merge step of both `main`s (lines 224–235 and 454–465):
each non-empty flag value overwrites `cfg`. -/
def applyFlags (cfg flags : Config) : Config :=
  { broker := if flags.broker ≠ "" then flags.broker else cfg.broker,
    topic := if flags.topic ≠ "" then flags.topic else cfg.topic,
    username := if flags.username ≠ "" then flags.username else cfg.username,
    password := if flags.password ≠ "" then flags.password else cfg.password }

/-!
## Config file loading

`loadConfigFromFile` (lines 112–145 and 368–401) reads the file and
unmarshals it into `map[string]interface{}`.  The JSON value decoded by
`encoding/json` is modelled by `JsonVal`; an object is its key/value list,
where a repeated key keeps the last occurrence (Go map build order).
Reading and parsing are external, so the input is
`readRes : Option (Option JsonVal)`: `none` = `os.ReadFile` failed,
`some none` = the bytes are not valid JSON, `some (some v)` = valid JSON `v`
(and unmarshalling a non-object `v` into a map fails).
-/

/-- A decoded JSON value, as produced by `encoding/json` into `interface{}`. -/
inductive JsonVal where
  | str (s : String)
  | num (q : ℚ)
  | bool (b : Bool)
  | null
  | arr (xs : List JsonVal)
  | obj (fields : List (String × JsonVal))

/-- Lookup in the `map[string]interface{}` built by `json.Unmarshal`:
the last occurrence of a key wins. -/
def lookupGo (fields : List (String × JsonVal)) (k : String) : Option JsonVal :=
  fields.foldl (fun acc kv => if kv.1 = k then some kv.2 else acc) none

/-- The Go type assertion `v.(string)` guarded by `ok` of the map lookup:
yields the string when the key maps to a JSON string, else leaves the
field as `""` (lines 124–143 / 380–399). -/
def strOrEmpty (v : Option JsonVal) : String :=
  match v with
  | some (.str s) => s
  | _ => ""

/-- Field extraction of `loadConfigFromFile` (lines 123–144 / 379–400):
each of the four recognized keys is taken when present with a string
value; everything else leaves the zero value `""`. -/
def extractConfig (fields : List (String × JsonVal)) : Config :=
  { broker := strOrEmpty (lookupGo fields "broker"),
    topic := strOrEmpty (lookupGo fields "topic"),
    username := strOrEmpty (lookupGo fields "username"),
    password := strOrEmpty (lookupGo fields "password") }

/-- `loadConfigFromFile` (lines 112–145 / 368–401): error when the file is
unreadable, not valid JSON, or not a JSON object; otherwise the extracted
config. -/
def loadConfigFromFile (readRes : Option (Option JsonVal)) : Except Unit Config :=
  match readRes with
  | none => .error ()
  | some none => .error ()
  | some (some (.obj fields)) => .ok (extractConfig fields)
  | some (some _) => .error ()

/-!
## Startup of the two `main`s

The outcome of configuration resolution: either the process exits fatally
(`log.Fatalf`) during config loading, or it proceeds to connect to the
broker with the merged configuration.
-/

/-- What `main` does after parsing flags: fatal exit during config loading,
or proceed to the MQTT connection with an effective config. -/
inductive StartupOutcome where
  | fatalExit
  | connect (cfg : Config)
deriving DecidableEq

/-- Variant A `main` (lines 189–237): defaults, then auto-detect
`config.json` (`filePresent` = `os.Stat` succeeded).  When present, a load
failure is fatal, and on success the file fields are merged and the flags
are skipped (`loadedFromConfig`); when absent, the flags are merged. -/
def startupAuto (filePresent : Bool) (readRes : Option (Option JsonVal))
    (flags : Config) : StartupOutcome :=
  if filePresent then
    match loadConfigFromFile readRes with
    | .error _ => .fatalExit
    | .ok fileCfg => .connect (applyFile defaultConfig fileCfg)
  else
    .connect (applyFlags defaultConfig flags)

/-- Variant B `main` (lines 426–465): defaults, then the file named by the
`--config` flag when non-empty (a load failure is fatal), then the flags on
top. -/
def startupFlag (configFile : String) (readRes : Option (Option JsonVal))
    (flags : Config) : StartupOutcome :=
  let cfg := defaultConfig
  if configFile ≠ "" then
    match loadConfigFromFile readRes with
    | .error _ => .fatalExit
    | .ok fileCfg => .connect (applyFlags (applyFile cfg fileCfg) flags)
  else
    .connect (applyFlags cfg flags)

/-!
## Async dispatch (variant A, lines 44–64)

The dispatch goroutine races `speakText` (delivering on the buffered
channel `done`) against a 30-second `context.WithTimeout`.  Time is
modelled in whole seconds; `speakDone` is the instant at which the inner
goroutine delivers the result of `speakText t` (`none` if `speakText`
never returns), and `speakErr` whether that result is a non-nil error.
The returned triple is: the time at which the `select` fires, what is
logged, and whether the in-flight synthesis call was cancelled — the code
cannot kill the PowerShell process, so this is always `false`.
-/

/-- What the async dispatch goroutine logs when its `select` fires. -/
inductive DispatchOutcome where
  | spokeErr
  | spokeOk
  | timedOut
deriving DecidableEq

/-- The async dispatch goroutine of variant A (lines 44–64): wait for
`speakText` up to the 30-second deadline; on timeout log and stop waiting,
leaving the synthesis call running. -/
def asyncDispatch (speakDone : Option Nat) (speakErr : Bool) :
    Nat × DispatchOutcome × Bool :=
  match speakDone with
  | some t =>
      if t < 30 then (t, (if speakErr then .spokeErr else .spokeOk), false)
      else (30, .timedOut, false)
  | none => (30, .timedOut, false)

/-! ### Basic lemmas about the handler pipeline -/

lemma trimSpace_sublist (s : GoStr) : List.Sublist (trimSpace s) s := by
  have h1 := List.rdropWhile_prefix goIsSpace (s.dropWhile goIsSpace)
  exact h1.sublist.trans (s.dropWhile_suffix goIsSpace).sublist

lemma goLen_trimSpace_le (s : GoStr) : goLen (trimSpace s) ≤ goLen s :=
  List.Sublist.sum_le_sum ((trimSpace_sublist s).map utf8Len)
    (fun _ _ => Nat.zero_le _)

lemma rawTextPS_eq_rawTextOLE (payload : GoStr) (decoded : Option GoStr) :
    rawTextPS payload decoded = rawTextOLE payload decoded := rfl

lemma handleMessagePS_eq_handleMessageOLE (payload : GoStr) (decoded : Option GoStr) :
    handleMessagePS payload decoded = handleMessageOLE payload decoded := rfl

lemma handleMessagePS_eq_some (payload : GoStr) (decoded : Option GoStr) (t : GoStr)
    (h : handleMessagePS payload decoded = some t) :
    t = trimSpace (rawTextPS payload decoded) ∧ t ≠ [] ∧ goLen t ≤ 500 := by
  unfold handleMessagePS at h
  by_cases hc : trimSpace (rawTextPS payload decoded) = [] ∨
      500 < goLen (trimSpace (rawTextPS payload decoded))
  · simp [hc] at h
  · simp only [hc, if_neg, if_false, Option.some.injEq] at h
    push_neg at hc
    exact ⟨h.symm, h ▸ hc.1, h ▸ hc.2⟩

lemma handleMessagePS_of_accept (payload : GoStr) (decoded : Option GoStr)
    (h1 : trimSpace (rawTextPS payload decoded) ≠ [])
    (h2 : goLen (trimSpace (rawTextPS payload decoded)) ≤ 500) :
    handleMessagePS payload decoded = some (trimSpace (rawTextPS payload decoded)) := by
  unfold handleMessagePS
  have : ¬ (trimSpace (rawTextPS payload decoded) = [] ∨
      500 < goLen (trimSpace (rawTextPS payload decoded))) := by
    push_neg
    exact ⟨h1, h2⟩
  simp [this]

/-! ### Helper lemmas about configuration merging and file loading -/

lemma strOrEmpty_of_str (v : Option JsonVal) (s : String)
    (h : v = some (.str s)) : strOrEmpty v = s := by
  subst h; rfl

lemma strOrEmpty_of_not_str (v : Option JsonVal)
    (h : ∀ s, v ≠ some (.str s)) : strOrEmpty v = "" := by
  match v with
  | none => rfl
  | some (.str s) => exact absurd rfl (h s)
  | some (.num q) => rfl
  | some (.bool b) => rfl
  | some .null => rfl
  | some (.arr xs) => rfl
  | some (.obj fs) => rfl

lemma lookupGo_cons_ne (k k' : String) (v : JsonVal)
    (fields : List (String × JsonVal)) (h : k ≠ k') :
    lookupGo ((k, v) :: fields) k' = lookupGo fields k' := by
  simp [lookupGo, h]

lemma applyFile_broker_ne (c f : Config) (h : c.broker ≠ "") :
    (applyFile c f).broker ≠ "" := by
  by_cases hf : f.broker = "" <;> simp [applyFile, hf, h]

lemma applyFile_topic_ne (c f : Config) (h : c.topic ≠ "") :
    (applyFile c f).topic ≠ "" := by
  by_cases hf : f.topic = "" <;> simp [applyFile, hf, h]

lemma applyFlags_broker_ne (c f : Config) (h : c.broker ≠ "") :
    (applyFlags c f).broker ≠ "" := by
  by_cases hf : f.broker = "" <;> simp [applyFlags, hf, h]

lemma applyFlags_topic_ne (c f : Config) (h : c.topic ≠ "") :
    (applyFlags c f).topic ≠ "" := by
  by_cases hf : f.topic = "" <;> simp [applyFlags, hf, h]

lemma defaultConfig_broker_ne : defaultConfig.broker ≠ "" := by decide

lemma defaultConfig_topic_ne : defaultConfig.topic ≠ "" := by decide

/-! ### Startup case-analysis helpers -/

lemma startupAuto_connect_cases (filePresent : Bool)
    (readRes : Option (Option JsonVal)) (flags c : Config)
    (h : startupAuto filePresent readRes flags = .connect c) :
    (∃ fc, c = applyFile defaultConfig fc) ∨ c = applyFlags defaultConfig flags := by
  unfold startupAuto at h
  cases filePresent with
  | true =>
      simp only [if_true] at h
      cases hld : loadConfigFromFile readRes with
      | error e => rw [hld] at h; cases h
      | ok fc =>
          rw [hld] at h
          left
          refine ⟨fc, ?_⟩
          injection h with h
          exact h.symm
  | false =>
      simp only [Bool.false_eq_true, if_false] at h
      right
      injection h with h
      exact h.symm

lemma startupFlag_connect_cases (configFile : String)
    (readRes : Option (Option JsonVal)) (flags c : Config)
    (h : startupFlag configFile readRes flags = .connect c) :
    (∃ fc, c = applyFlags (applyFile defaultConfig fc) flags) ∨
      c = applyFlags defaultConfig flags := by
  unfold startupFlag at h
  by_cases hcf : configFile = ""
  · simp only [hcf, ne_eq, not_true_eq_false, if_false] at h
    right
    injection h with h
    exact h.symm
  · simp only [ne_eq, hcf, not_false_eq_true, if_true] at h
    cases hld : loadConfigFromFile readRes with
    | error e => rw [hld] at h; cases h
    | ok fc =>
        rw [hld] at h
        left
        refine ⟨fc, ?_⟩
        injection h with h
        exact h.symm

/-!
## Claims
-/

/-- C1: for every MQTT payload whose structured JSON decode yields a
non-empty `text` field `s` of at most 500 bytes, both variants' handlers
extract exactly `s`, any text dispatched to the speech adapter is `s`
after trimming, and when `s` trims to a non-empty string that dispatch
does happen. -/
theorem claim_c1_json_text_extracted (payload s : GoStr)
    (hne : s ≠ []) (hlen : goLen s ≤ 500) :
    rawTextPS payload (some s) = s ∧
    rawTextOLE payload (some s) = s ∧
    (∀ t, handleMessagePS payload (some s) = some t → t = trimSpace s) ∧
    (∀ t, handleMessageOLE payload (some s) = some t → t = trimSpace s) ∧
    (trimSpace s ≠ [] →
      handleMessagePS payload (some s) = some (trimSpace s) ∧
      handleMessageOLE payload (some s) = some (trimSpace s)) := by
  have hr : rawTextPS payload (some s) = s := by simp [rawTextPS, hne]
  refine ⟨hr, hr, ?_, ?_, ?_⟩
  · intro t ht
    have h := (handleMessagePS_eq_some payload (some s) t ht).1
    rwa [hr] at h
  · intro t ht
    rw [← handleMessagePS_eq_handleMessageOLE] at ht
    have h := (handleMessagePS_eq_some payload (some s) t ht).1
    rwa [hr] at h
  · intro htne
    have h1 : trimSpace (rawTextPS payload (some s)) ≠ [] := by rwa [hr]
    have h2 : goLen (trimSpace (rawTextPS payload (some s))) ≤ 500 := by
      rw [hr]; exact le_trans (goLen_trimSpace_le s) hlen
    have h := handleMessagePS_of_accept payload (some s) h1 h2
    rw [hr] at h
    exact ⟨h, (handleMessagePS_eq_handleMessageOLE payload (some s)) ▸ h⟩

/-- Witness for C1 at the concrete payload text "hi" (runes 104, 105). -/
theorem claim_c1_witness :
    handleMessagePS [] (some [104, 105]) = some (trimSpace [104, 105]) :=
  ((claim_c1_json_text_extracted [] [104, 105] (by decide) (by decide)).2.2.2.2
    (by decide)).1

/-- C2: whenever the structured decode does not yield a non-empty `text`
field (decode error, or success with an empty `Text`), both variants use
the entire raw payload, trimmed, as the speech text. -/
theorem claim_c2_raw_payload_fallback (payload : GoStr) (decoded : Option GoStr)
    (h : decoded = none ∨ decoded = some []) :
    rawTextPS payload decoded = payload ∧
    rawTextOLE payload decoded = payload ∧
    (∀ t, handleMessagePS payload decoded = some t → t = trimSpace payload) ∧
    (∀ t, handleMessageOLE payload decoded = some t → t = trimSpace payload) ∧
    (trimSpace payload ≠ [] → goLen (trimSpace payload) ≤ 500 →
      handleMessagePS payload decoded = some (trimSpace payload) ∧
      handleMessageOLE payload decoded = some (trimSpace payload)) := by
  have hr : rawTextPS payload decoded = payload := by
    rcases h with h | h <;> simp [rawTextPS, h]
  refine ⟨hr, hr, ?_, ?_, ?_⟩
  · intro t ht
    have hx := (handleMessagePS_eq_some payload decoded t ht).1
    rwa [hr] at hx
  · intro t ht
    rw [← handleMessagePS_eq_handleMessageOLE] at ht
    have hx := (handleMessagePS_eq_some payload decoded t ht).1
    rwa [hr] at hx
  · intro h1 h2
    have hx := handleMessagePS_of_accept payload decoded
      (by rwa [hr]) (by rwa [hr])
    rw [hr] at hx
    exact ⟨hx, (handleMessagePS_eq_handleMessageOLE payload decoded) ▸ hx⟩

/-- Witness for C2 at the non-JSON payload "hi" (runes 104, 105). -/
theorem claim_c2_witness :
    rawTextPS [104, 105] none = [104, 105] :=
  (claim_c2_raw_payload_fallback [104, 105] none (Or.inl rfl)).1

set_option maxRecDepth 10000 in
/-- Counterexample for C3 as stated: the payload decodes to a `text` field
of 167 runes of U+4E2D (3 UTF-8 bytes each, 501 bytes total), which after
trimming is unchanged, non-empty and at most 500 characters/code points —
yet both handlers drop it, because the code compares `len(text)`, the
byte length, against 500. -/
theorem claim_c3_counterexample :
    (List.replicate 167 0x4E2D : GoStr) ≠ [] ∧
    (List.replicate 167 0x4E2D : GoStr).length ≤ 500 ∧
    trimSpace (rawTextPS [] (some (List.replicate 167 0x4E2D))) =
      List.replicate 167 0x4E2D ∧
    handleMessagePS [] (some (List.replicate 167 0x4E2D)) = none ∧
    handleMessageOLE [] (some (List.replicate 167 0x4E2D)) = none := by
  refine ⟨by decide, by decide, by decide, by decide, by decide⟩

/-- C3 (amended): each variant's handler invokes the speech adapter if and
only if the extracted text, after trimming, is non-empty and has at most
500 UTF-8 **bytes** (Go's `len`), and any dispatched text is exactly that
trimmed text; otherwise the message is dropped. -/
theorem claim_c3_amended_accept_iff (payload : GoStr) (decoded : Option GoStr) :
    ((handleMessagePS payload decoded).isSome ↔
      (trimSpace (rawTextPS payload decoded) ≠ [] ∧
        goLen (trimSpace (rawTextPS payload decoded)) ≤ 500)) ∧
    ((handleMessageOLE payload decoded).isSome ↔
      (trimSpace (rawTextOLE payload decoded) ≠ [] ∧
        goLen (trimSpace (rawTextOLE payload decoded)) ≤ 500)) ∧
    (∀ t, handleMessagePS payload decoded = some t →
      t = trimSpace (rawTextPS payload decoded)) ∧
    (∀ t, handleMessageOLE payload decoded = some t →
      t = trimSpace (rawTextOLE payload decoded)) := by
  have key : (handleMessagePS payload decoded).isSome ↔
      (trimSpace (rawTextPS payload decoded) ≠ [] ∧
        goLen (trimSpace (rawTextPS payload decoded)) ≤ 500) := by
    constructor
    · intro hs
      rcases Option.isSome_iff_exists.mp hs with ⟨t, ht⟩
      have h := handleMessagePS_eq_some payload decoded t ht
      exact ⟨h.1 ▸ h.2.1, h.1 ▸ h.2.2⟩
    · rintro ⟨h1, h2⟩
      rw [handleMessagePS_of_accept payload decoded h1 h2]
      rfl
  refine ⟨key, ?_, ?_, ?_⟩
  · rw [← handleMessagePS_eq_handleMessageOLE, ← rawTextPS_eq_rawTextOLE]
    exact key
  · intro t ht
    exact (handleMessagePS_eq_some payload decoded t ht).1
  · intro t ht
    rw [← handleMessagePS_eq_handleMessageOLE] at ht
    rw [← rawTextPS_eq_rawTextOLE]
    exact (handleMessagePS_eq_some payload decoded t ht).1

/-- C10: the payload-to-text extraction and accept/reject decision of the
two variants' message handlers are extensionally equal. -/
theorem claim_c10_handlers_extensionally_equal :
    ∀ payload decoded,
      rawTextPS payload decoded = rawTextOLE payload decoded ∧
      handleMessagePS payload decoded = handleMessageOLE payload decoded :=
  fun _ _ => ⟨rfl, rfl⟩

/-- C4: in the flag-overrides-file variant, with the `--config` flag set and
the file loaded as `fileCfg`, the startup connects with
`applyFlags (applyFile defaultConfig fileCfg) flags`, and for arbitrary
defaults `d` each merged field is the flag value when set, else the file
value when set, else the default. -/
theorem claim_c4_flag_variant_precedence (d fileCfg flags : Config)
    (configFile : String) (readRes : Option (Option JsonVal))
    (hcf : configFile ≠ "")
    (hload : loadConfigFromFile readRes = .ok fileCfg) :
    startupFlag configFile readRes flags =
      .connect (applyFlags (applyFile defaultConfig fileCfg) flags) ∧
    (applyFlags (applyFile d fileCfg) flags).broker =
      (if flags.broker ≠ "" then flags.broker
       else if fileCfg.broker ≠ "" then fileCfg.broker else d.broker) ∧
    (applyFlags (applyFile d fileCfg) flags).topic =
      (if flags.topic ≠ "" then flags.topic
       else if fileCfg.topic ≠ "" then fileCfg.topic else d.topic) ∧
    (applyFlags (applyFile d fileCfg) flags).username =
      (if flags.username ≠ "" then flags.username
       else if fileCfg.username ≠ "" then fileCfg.username else d.username) ∧
    (applyFlags (applyFile d fileCfg) flags).password =
      (if flags.password ≠ "" then flags.password
       else if fileCfg.password ≠ "" then fileCfg.password else d.password) := by
  refine ⟨?_, rfl, rfl, rfl, rfl⟩
  simp [startupFlag, hcf, hload]

/-- Witness for C4 with a file setting the broker and a flag overriding it. -/
theorem claim_c4_witness :
    startupFlag "config.json" (some (some (.obj [("broker", JsonVal.str "b1")])))
      ⟨"b2", "", "", ""⟩ =
    .connect (applyFlags (applyFile defaultConfig ⟨"b1", "", "", ""⟩)
      ⟨"b2", "", "", ""⟩) :=
  (claim_c4_flag_variant_precedence defaultConfig ⟨"b1", "", "", ""⟩
    ⟨"b2", "", "", ""⟩ "config.json"
    (some (some (.obj [("broker", JsonVal.str "b1")]))) (by decide) rfl).1

/-- C5: in the auto-detect variant, whenever `config.json` is present and
loads successfully, the startup outcome is the defaults merged with the
file alone — the flag values are ignored entirely. -/
theorem claim_c5_auto_variant_ignores_flags (readRes : Option (Option JsonVal))
    (fileCfg flags flags' : Config)
    (hload : loadConfigFromFile readRes = .ok fileCfg) :
    startupAuto true readRes flags = .connect (applyFile defaultConfig fileCfg) ∧
    startupAuto true readRes flags = startupAuto true readRes flags' := by
  have h1 : startupAuto true readRes flags =
      .connect (applyFile defaultConfig fileCfg) := by
    simp [startupAuto, hload]
  have h2 : startupAuto true readRes flags' =
      .connect (applyFile defaultConfig fileCfg) := by
    simp [startupAuto, hload]
  exact ⟨h1, h1.trans h2.symm⟩

/-- Witness for C5 with an empty JSON object as the config file. -/
theorem claim_c5_witness :
    startupAuto true (some (some (.obj []))) ⟨"x", "y", "", ""⟩ =
      .connect (applyFile defaultConfig ⟨"", "", "", ""⟩) :=
  (claim_c5_auto_variant_ignores_flags (some (some (.obj [])))
    ⟨"", "", "", ""⟩ ⟨"x", "y", "", ""⟩ ⟨"", "", "", ""⟩ rfl).1

/-- C6: a present-but-malformed config file (unreadable, or not valid
JSON) makes both variants' startup exit fatally during configuration
loading, before any broker connection attempt. -/
theorem claim_c6_malformed_config_fatal (readRes : Option (Option JsonVal))
    (configFile : String) (flags : Config)
    (hbad : readRes = none ∨ readRes = some none) (hcf : configFile ≠ "") :
    startupAuto true readRes flags = .fatalExit ∧
    startupFlag configFile readRes flags = .fatalExit := by
  have hload : loadConfigFromFile readRes = .error () := by
    rcases hbad with h | h <;> simp [loadConfigFromFile, h]
  constructor
  · simp [startupAuto, hload]
  · simp [startupFlag, hcf, hload]

/-- Witness for C6 with a file whose bytes are not valid JSON. -/
theorem claim_c6_witness :
    startupFlag "config.json" (some none) ⟨"", "", "", ""⟩ = .fatalExit :=
  (claim_c6_malformed_config_fatal (some none) "config.json" ⟨"", "", "", ""⟩
    (Or.inr rfl) (by decide)).2

/-- C7: the async dispatch goroutine always stops waiting within 30
seconds; if `speakText` never completes it logs the timeout at 30 seconds
and the in-flight synthesis call is not cancelled. -/
theorem claim_c7_async_dispatch_timeout (speakDone : Option Nat) (speakErr : Bool) :
    (asyncDispatch speakDone speakErr).1 ≤ 30 ∧
    (speakDone = none →
      (asyncDispatch speakDone speakErr).2.1 = .timedOut ∧
      (asyncDispatch speakDone speakErr).2.2 = false) := by
  constructor
  · match speakDone with
    | none => simp [asyncDispatch]
    | some t =>
        by_cases h : t < 30
        · simp only [asyncDispatch, if_pos h]
          omega
        · simp only [asyncDispatch, if_neg h]
          omega
  · rintro rfl
    exact ⟨rfl, rfl⟩

/-- Witness for C7: a synthesis call that never completes times out. -/
theorem claim_c7_witness :
    (asyncDispatch none false).2.1 = DispatchOutcome.timedOut :=
  ((claim_c7_async_dispatch_timeout none false).2 rfl).1

/-- C8: for every JSON object config file, `loadConfigFromFile` succeeds
and each of the four recognized fields equals the file's value exactly
when the key is present with a string value; keys with non-string values
and absent keys leave the field `""`, and adding an unrecognized key does
not change the result. -/
theorem claim_c8_load_config_field_extraction
    (fields : List (String × JsonVal)) :
    ∃ cfg, loadConfigFromFile (some (some (.obj fields))) = .ok cfg ∧
      (∀ s, lookupGo fields "broker" = some (.str s) → cfg.broker = s) ∧
      ((∀ s, lookupGo fields "broker" ≠ some (.str s)) → cfg.broker = "") ∧
      (∀ s, lookupGo fields "topic" = some (.str s) → cfg.topic = s) ∧
      ((∀ s, lookupGo fields "topic" ≠ some (.str s)) → cfg.topic = "") ∧
      (∀ s, lookupGo fields "username" = some (.str s) → cfg.username = s) ∧
      ((∀ s, lookupGo fields "username" ≠ some (.str s)) → cfg.username = "") ∧
      (∀ s, lookupGo fields "password" = some (.str s) → cfg.password = s) ∧
      ((∀ s, lookupGo fields "password" ≠ some (.str s)) → cfg.password = "") ∧
      (∀ k v, k ≠ "broker" → k ≠ "topic" → k ≠ "username" → k ≠ "password" →
        loadConfigFromFile (some (some (.obj ((k, v) :: fields)))) =
          loadConfigFromFile (some (some (.obj fields)))) := by
  refine ⟨extractConfig fields, rfl, ?_, ?_, ?_, ?_, ?_, ?_, ?_, ?_, ?_⟩
  · intro s h; exact strOrEmpty_of_str _ s h
  · intro h; exact strOrEmpty_of_not_str _ h
  · intro s h; exact strOrEmpty_of_str _ s h
  · intro h; exact strOrEmpty_of_not_str _ h
  · intro s h; exact strOrEmpty_of_str _ s h
  · intro h; exact strOrEmpty_of_not_str _ h
  · intro s h; exact strOrEmpty_of_str _ s h
  · intro h; exact strOrEmpty_of_not_str _ h
  · intro k v h1 h2 h3 h4
    simp only [loadConfigFromFile, Except.ok.injEq]
    unfold extractConfig
    rw [lookupGo_cons_ne k "broker" v fields h1,
        lookupGo_cons_ne k "topic" v fields h2,
        lookupGo_cons_ne k "username" v fields h3,
        lookupGo_cons_ne k "password" v fields h4]

/-- Witness for C8 with a one-key object file setting the broker. -/
theorem claim_c8_witness :
    ∃ cfg, loadConfigFromFile
        (some (some (.obj [("broker", JsonVal.str "tcp://h:1883")]))) = .ok cfg ∧
      (∀ s, lookupGo [("broker", JsonVal.str "tcp://h:1883")] "broker" =
          some (.str s) → cfg.broker = s) ∧
      ((∀ s, lookupGo [("broker", JsonVal.str "tcp://h:1883")] "broker" ≠
          some (.str s)) → cfg.broker = "") ∧
      (∀ s, lookupGo [("broker", JsonVal.str "tcp://h:1883")] "topic" =
          some (.str s) → cfg.topic = s) ∧
      ((∀ s, lookupGo [("broker", JsonVal.str "tcp://h:1883")] "topic" ≠
          some (.str s)) → cfg.topic = "") ∧
      (∀ s, lookupGo [("broker", JsonVal.str "tcp://h:1883")] "username" =
          some (.str s) → cfg.username = s) ∧
      ((∀ s, lookupGo [("broker", JsonVal.str "tcp://h:1883")] "username" ≠
          some (.str s)) → cfg.username = "") ∧
      (∀ s, lookupGo [("broker", JsonVal.str "tcp://h:1883")] "password" =
          some (.str s) → cfg.password = s) ∧
      ((∀ s, lookupGo [("broker", JsonVal.str "tcp://h:1883")] "password" ≠
          some (.str s)) → cfg.password = "") ∧
      (∀ k v, k ≠ "broker" → k ≠ "topic" → k ≠ "username" → k ≠ "password" →
        loadConfigFromFile (some (some (.obj
            ((k, v) :: [("broker", JsonVal.str "tcp://h:1883")])))) =
          loadConfigFromFile
            (some (some (.obj [("broker", JsonVal.str "tcp://h:1883")])))) :=
  claim_c8_load_config_field_extraction [("broker", JsonVal.str "tcp://h:1883")]

/-- C9: in both variants, whenever startup proceeds to connect, the
effective broker and topic are non-empty: the non-empty hard defaults are
only ever overridden by non-empty file or flag values. -/
theorem claim_c9_broker_topic_nonempty (filePresent : Bool)
    (readRes : Option (Option JsonVal)) (configFile : String)
    (flags cfgA cfgB : Config)
    (hA : startupAuto filePresent readRes flags = .connect cfgA)
    (hB : startupFlag configFile readRes flags = .connect cfgB) :
    cfgA.broker ≠ "" ∧ cfgA.topic ≠ "" ∧ cfgB.broker ≠ "" ∧ cfgB.topic ≠ "" := by
  have pA : cfgA.broker ≠ "" ∧ cfgA.topic ≠ "" := by
    rcases startupAuto_connect_cases filePresent readRes flags cfgA hA with
      ⟨fc, rfl⟩ | rfl
    · exact ⟨applyFile_broker_ne _ _ defaultConfig_broker_ne,
        applyFile_topic_ne _ _ defaultConfig_topic_ne⟩
    · exact ⟨applyFlags_broker_ne _ _ defaultConfig_broker_ne,
        applyFlags_topic_ne _ _ defaultConfig_topic_ne⟩
  have pB : cfgB.broker ≠ "" ∧ cfgB.topic ≠ "" := by
    rcases startupFlag_connect_cases configFile readRes flags cfgB hB with
      ⟨fc, rfl⟩ | rfl
    · exact ⟨applyFlags_broker_ne _ _ (applyFile_broker_ne _ _ defaultConfig_broker_ne),
        applyFlags_topic_ne _ _ (applyFile_topic_ne _ _ defaultConfig_topic_ne)⟩
    · exact ⟨applyFlags_broker_ne _ _ defaultConfig_broker_ne,
        applyFlags_topic_ne _ _ defaultConfig_topic_ne⟩
  exact ⟨pA.1, pA.2, pB.1, pB.2⟩

/-- Witness for C9 with no config file and empty flags in both variants. -/
theorem claim_c9_witness :
    (applyFlags defaultConfig ⟨"", "", "", ""⟩).broker ≠ "" :=
  (claim_c9_broker_topic_nonempty false none "" ⟨"", "", "", ""⟩
    (applyFlags defaultConfig ⟨"", "", "", ""⟩)
    (applyFlags defaultConfig ⟨"", "", "", ""⟩) rfl rfl).1

end WinTts
